import Mathlib

/-!
Shallow embedding of the realtime audio session lifecycle managers of the
CONVERSA-SITE-TESTE repository: the P2P call manager `PeerService`
(src/unnamed/part_000, the variant whose behaviour the spec describes:
memoized `startLocalStream`, `call.off` before `call.on` in
`setupCallEvents`, stable-error swallowing in `answerCall`, guarded
`init`/`destroy`) and the AI agent manager `LiveService`
(src/services/peerService.ts, lines 171-382).

Conventions of the embedding:
- JavaScript object fields holding resources become `Option Nat` slots
  (`some id` = the resource is present and identified by `id`, `none` = the
  slot is null/cleared).
- Times (the output audio clock, chunk durations, scheduled start times)
  are rationals, the honest total model of the float seconds in the code.
- Side effects on external collaborators (getUserMedia, track.stop(),
  call.close(), peer.destroy(), clearInterval, audioContext.close(),
  node.disconnect(), opening the streaming session) are recorded in an
  explicit event list returned next to the updated state.
- Error messages are lists of characters; `String.includes` from the code
  becomes the executable substring test `charsContains`.
-/

/-- Side effects that the session managers perform on their external
collaborators (media acquisition, transport, timers, audio host). -/
inductive Ev where
  | getUserMedia
  | stopTracks (sid : Nat)
  | closeCall (cid : Nat)
  | destroyPeer (pid : Nat)
  | createPeer (pid : Nat)
  | newCall (cid : Nat)
  | clearTimer (tid : Nat)
  | closeCtx (cid : Nat)
  | createCtx (rate : Nat)
  | disconnectNode (nid : Nat)
  | openSession
deriving DecidableEq

/-- Count of microphone acquisitions (`getUserMedia` calls) in an event log. -/
def countMic (evs : List Ev) : Nat :=
  evs.countP (fun e => e == Ev.getUserMedia)

/-- Does the first list of characters occur at the head of the second?
(Helper for the substring test below.) -/
def charsLeadMatch : List Char → List Char → Bool
  | [], _ => true
  | _ :: _, [] => false
  | a :: as, b :: bs => a == b && charsLeadMatch as bs

/-- Does the first list of characters occur contiguously anywhere inside the
second? This is the embedding of JavaScript `String.prototype.includes`,
used by `PeerService.answerCall` on the message of the thrown error. -/
def charsContains (needle : List Char) : List Char → Bool
  | [] => needle.isEmpty
  | c :: cs => charsLeadMatch needle (c :: cs) || charsContains needle cs

/-- The characters of the literal stable tested for by
`PeerService.answerCall`. -/
def stableChars : List Char := ['s', 't', 'a', 'b', 'l', 'e']

/-! ## LiveService (Agent session manager) -/

/-- One `AudioBufferSourceNode` created by `LiveService.handleServerMessage`:
its allocation id, the time `source.start(t)` was called with, the decoded
duration of the decoded buffer, whether `source.stop()` has been called on it, and whether
it is currently a member of the `audioSources` set. -/
structure SrcRec where
  sid : Nat
  startTime : ℚ
  duration : ℚ
  stopped : Bool
  tracked : Bool
deriving DecidableEq

/-- The mutable fields of a `LiveService` instance. `sources` is the list of
every buffer source the session ever created, in creation order; the
`audioSources` set of the code is its `tracked` sublist. -/
structure LiveState where
  inputAudioContext : Option Nat
  outputAudioContext : Option Nat
  inputSource : Option Nat
  processor : Option Nat
  outputNode : Option Nat
  inputAnalyser : Option Nat
  outputAnalyser : Option Nat
  sources : List SrcRec
  nextStartTime : ℚ
  stream : Option Nat
  isConnected : Bool
  sessionRequested : Bool
  volumeInterval : Option Nat
  nextSid : Nat
deriving DecidableEq

/-- A freshly constructed `LiveService`: every slot null, cursor at zero. -/
def initLive : LiveState :=
  { inputAudioContext := none
    outputAudioContext := none
    inputSource := none
    processor := none
    outputNode := none
    inputAnalyser := none
    outputAnalyser := none
    sources := []
    nextStartTime := 0
    stream := none
    isConnected := false
    sessionRequested := false
    volumeInterval := none
    nextSid := 0 }

namespace LiveService

/-- Effect of the interruption branch of `handleServerMessage` on one tracked
buffer source: `audioSources.forEach(src => src.stop())` followed by
`audioSources.clear()` stops the source and removes it from the set;
sources not in the set are untouched. -/
def stopTracked (r : SrcRec) : SrcRec :=
  if r.tracked then { r with stopped := true, tracked := false } else r

/-- Model of `LiveService.connect`: no-op if already connected; otherwise it creates
the 16 kHz input and 24 kHz output audio contexts and their analysers, the
output gain node, acquires the microphone stream, and requests the remote
streaming session. `base` allocates fresh ids for the created objects and
`micId` for the acquired stream. (`isConnected` is only set later, by the
`onopen` callback of the session.) -/
def connect (base micId : Nat) (s : LiveState) : LiveState × List Ev :=
  if s.isConnected then (s, [])
  else
    ({ s with
        inputAudioContext := some base
        outputAudioContext := some (base + 1)
        inputAnalyser := some (base + 2)
        outputAnalyser := some (base + 3)
        outputNode := some (base + 4)
        stream := some micId
        sessionRequested := true },
      [Ev.createCtx 16000, Ev.createCtx 24000, Ev.getUserMedia, Ev.openSession])

/-- Model of `LiveService.handleServerMessage`: guard on the output context and node;
if the message carries a base64 audio payload (modelled by the decoded
duration `dur` of the decoded buffer), advance the cursor to `max nextStartTime now`
(`now` is the `currentTime` of the output context), start a new buffer source at
the cursor, advance the cursor by the duration and add the source to
`audioSources`; then, if the message carries the `interrupted` flag, stop
every source in `audioSources`, clear the set and reset the cursor to 0. -/
def handleServerMessage (now : ℚ) (dur : Option ℚ) (interrupted : Bool)
    (s : LiveState) : LiveState :=
  if s.outputAudioContext.isNone || s.outputNode.isNone then s
  else
    let s1 :=
      match dur with
      | none => s
      | some d =>
        let t := max s.nextStartTime now
        { s with
            nextStartTime := t + d
            sources := s.sources ++ [⟨s.nextSid, t, d, false, true⟩]
            nextSid := s.nextSid + 1 }
    if interrupted then
      { s1 with
          sources := s1.sources.map stopTracked
          nextStartTime := 0 }
    else s1

/-- The ended-event listener registered on each buffer source: deletes the
source from the `audioSources` set (it does not touch the cursor). -/
def sourceEnded (sid : Nat) (s : LiveState) : LiveState :=
  { s with
      sources := s.sources.map (fun r =>
        if r.sid == sid then { r with tracked := false } else r) }

/-- Model of `LiveService.disconnect`: clears the connected flag, stops the
microphone tracks and nulls the stream, disconnects and nulls the processor
and input source nodes, closes and nulls both audio contexts, and clears the
metering timer. It does not touch `outputNode`, `audioSources`,
`nextStartTime` or the analysers. -/
def disconnect (s : LiveState) : LiveState × List Ev :=
  let (s1, e1) :=
    match s.stream with
    | some m => ({ s with stream := none, isConnected := false }, [Ev.stopTracks m])
    | none => ({ s with isConnected := false }, [])
  let (s2, e2) :=
    match s1.processor with
    | some p => ({ s1 with processor := none }, [Ev.disconnectNode p])
    | none => (s1, [])
  let (s3, e3) :=
    match s2.inputSource with
    | some n => ({ s2 with inputSource := none }, [Ev.disconnectNode n])
    | none => (s2, [])
  let (s4, e4) :=
    match s3.inputAudioContext with
    | some c => ({ s3 with inputAudioContext := none }, [Ev.closeCtx c])
    | none => (s3, [])
  let (s5, e5) :=
    match s4.outputAudioContext with
    | some c => ({ s4 with outputAudioContext := none }, [Ev.closeCtx c])
    | none => (s4, [])
  let (s6, e6) :=
    match s5.volumeInterval with
    | some t => ({ s5 with volumeInterval := none }, [Ev.clearTimer t])
    | none => (s5, [])
  (s6, e1 ++ e2 ++ e3 ++ e4 ++ e5 ++ e6)

/-- Buffer sources of a `LiveService` state that can still produce sound: a
scheduled `AudioBufferSourceNode` renders only while its owning audio
context is open and `stop()` has not been called on it (Web Audio host
semantics for the sources created in `handleServerMessage`). -/
def audibleSources (s : LiveState) : List SrcRec :=
  if s.outputAudioContext.isSome then s.sources.filter (fun r => !r.stopped)
  else []

/-- Run `handleServerMessage` over a sequence of audio-only messages, each
given as (output-clock reading on arrival, decoded chunk duration), with no
interruption in between. -/
def runAudio : List (ℚ × ℚ) → LiveState → LiveState
  | [], s => s
  | (now, d) :: rest, s => runAudio rest (handleServerMessage now (some d) false s)

/-- The buffer sources a run of audio-only messages appends, beyond those
the start state already had. -/
def newChunks (msgs : List (ℚ × ℚ)) (s : LiveState) : List SrcRec :=
  (runAudio msgs s).sources.drop s.sources.length

/-- The schedule the spec describes, as a recurrence: each chunk starts at
`max cursor now`, and the cursor then advances by the duration of the chunk.
(Stated from the words of the spec, for comparison with `runAudio`.) -/
def specSchedule : List (ℚ × ℚ) → ℚ → Nat → List SrcRec
  | [], _, _ => []
  | (now, d) :: rest, cursor, sid =>
    ⟨sid, max cursor now, d, false, true⟩ ::
      specSchedule rest (max cursor now + d) (sid + 1)

end LiveService

/-! ## PeerService (P2P call manager) -/

/-- A PeerJS `MediaConnection` as used by `PeerService`: its id, the remote
id of the remote peer, and the listener lists for its `stream`, `close` and `error`
events (`call.on` appends a listener, `call.off` removes all listeners of
the event). -/
structure CallRec where
  cid : Nat
  remotePeer : Nat
  streamHandlers : List Nat
  closeHandlers : List Nat
  errorHandlers : List Nat
deriving DecidableEq

/-- The mutable fields of a `PeerService` instance. `nextId` allocates fresh
listener ids. -/
structure PeerState where
  peer : Option Nat
  myStream : Option Nat
  remoteStream : Option Nat
  call : Option CallRec
  audioContext : Option Nat
  inputAnalyser : Option Nat
  remoteAnalyser : Option Nat
  volumeInterval : Option Nat
  nextId : Nat
deriving DecidableEq

/-- A freshly constructed `PeerService`: every slot null. -/
def initPeer : PeerState :=
  { peer := none
    myStream := none
    remoteStream := none
    call := none
    audioContext := none
    inputAnalyser := none
    remoteAnalyser := none
    volumeInterval := none
    nextId := 0 }

namespace PeerService

/-- Model of `PeerService.init`: if a prior PeerJS registration exists it is
destroyed first, then a new `Peer` (id `newPid`) is created and registered. -/
def init (newPid : Nat) (s : PeerState) : PeerState × List Ev :=
  let e0 :=
    match s.peer with
    | some p => [Ev.destroyPeer p]
    | none => []
  ({ s with peer := some newPid }, e0 ++ [Ev.createPeer newPid])

/-- Model of `PeerService.startLocalStream`: returns the memoized stream when one is
already held; otherwise acquires the microphone (`getUserMedia`), stores and
returns it. `fresh` is the stream the collaborator would hand back. -/
def startLocalStream (fresh : Nat) (s : PeerState) : PeerState × Nat × List Ev :=
  match s.myStream with
  | some m => (s, m, [])
  | none => ({ s with myStream := some fresh }, fresh, [Ev.getUserMedia])

/-- Iterate `startLocalStream` over a list of would-be fresh streams,
collecting all emitted events (the shape of a session that starts several
calls, each of which asks for the local stream). -/
def runStartCalls : List Nat → PeerState → PeerState × List Ev
  | [], s => (s, [])
  | f :: fs, s =>
    let (s1, _, e1) := startLocalStream f s
    let (s2, e2) := runStartCalls fs s1
    (s2, e1 ++ e2)

/-- Model of `PeerService.setupCallEvents`: first, `call.off` for each of
stream, close and error removes every previously attached
listener, then one fresh listener is attached per event. `h` is the first
of the three fresh listener ids. -/
def setupCallEvents (c : CallRec) (h : Nat) : CallRec :=
  let cleared := { c with streamHandlers := ([] : List Nat)
                          closeHandlers := ([] : List Nat)
                          errorHandlers := ([] : List Nat) }
  { cleared with
      streamHandlers := cleared.streamHandlers ++ [h]
      closeHandlers := cleared.closeHandlers ++ [h + 1]
      errorHandlers := cleared.errorHandlers ++ [h + 2] }

/-- Model of `PeerService.makeCall`: acquires the local stream if absent, closes any
existing call, initiates a new call (id `newCid`) toward `remoteId`, and
wires its event handlers. -/
def makeCall (remoteId newCid fresh : Nat) (s : PeerState) : PeerState × List Ev :=
  let (s1, _, e1) := startLocalStream fresh s
  let e2 :=
    match s1.call with
    | some c => [Ev.closeCall c.cid]
    | none => []
  let wired := setupCallEvents ⟨newCid, remoteId, [], [], []⟩ s1.nextId
  ({ s1 with call := some wired, nextId := s1.nextId + 3 },
    e1 ++ e2 ++ [Ev.newCall newCid])

/-- Outcome of the transport-side `call.answer(stream)`: either it returns
normally, or it throws an error with the given message. -/
inductive AnswerOutcome where
  | ok
  | err (msg : List Char)
deriving DecidableEq

/-- Model of `PeerService.answerCall`: no-op when no incoming call is pending;
acquires the local stream if absent; calls `call.answer(stream)` inside a
try/catch — an error whose message includes stable is swallowed with a
warning and execution proceeds, any other error is rethrown; finally wires
the event handlers of the call. -/
def answerCall (outcome : AnswerOutcome) (fresh : Nat) (s : PeerState) :
    Except (List Char) (PeerState × List Ev) :=
  match s.call with
  | none => Except.ok (s, [])
  | some c =>
    let (s1, _, e1) := startLocalStream fresh s
    let proceed : Except (List Char) Unit :=
      match outcome with
      | AnswerOutcome.ok => Except.ok ()
      | AnswerOutcome.err msg =>
        if msg.isEmpty then Except.error msg
        else if charsContains stableChars msg then Except.ok ()
        else Except.error msg
    match proceed with
    | Except.error msg => Except.error msg
    | Except.ok _ =>
      let wired := setupCallEvents c s1.nextId
      Except.ok ({ s1 with call := some wired, nextId := s1.nextId + 3 }, e1)

/-- Model of `PeerService.cleanupCall`: nulls the call handle and remote stream,
clears the metering timer when present, closes and nulls the audio-analysis
context when present. -/
def cleanupCall (s : PeerState) : PeerState × List Ev :=
  let e1 :=
    match s.volumeInterval with
    | some t => [Ev.clearTimer t]
    | none => []
  let e2 :=
    match s.audioContext with
    | some a => [Ev.closeCtx a]
    | none => []
  ({ s with call := none, remoteStream := none,
            volumeInterval := none, audioContext := none },
    e1 ++ e2)

/-- Model of `PeerService.endCall`: closes the active call transport-side when one
exists, then runs `cleanupCall`. -/
def endCall (s : PeerState) : PeerState × List Ev :=
  let e0 :=
    match s.call with
    | some c => [Ev.closeCall c.cid]
    | none => []
  let (s1, e1) := cleanupCall s
  (s1, e0 ++ e1)

/-- Model of `PeerService.destroy`: runs `endCall`, then stops the local microphone
tracks and nulls the stream when present, then destroys and nulls the
PeerJS registration when present. -/
def destroy (s : PeerState) : PeerState × List Ev :=
  let (s1, e1) := endCall s
  let (s2, e2) :=
    match s1.myStream with
    | some m => ({ s1 with myStream := none }, [Ev.stopTracks m])
    | none => (s1, [])
  let (s3, e3) :=
    match s2.peer with
    | some p => ({ s2 with peer := none }, [Ev.destroyPeer p])
    | none => (s2, [])
  (s3, e1 ++ e2 ++ e3)

end PeerService

/-! ## Supporting lemmas -/

namespace LiveService

lemma stopTracked_tracked (r : SrcRec) : (stopTracked r).tracked = false := by
  unfold stopTracked
  split <;> simp_all

/-- A message carrying an audio payload and no interruption, processed while
the output context and node exist, appends exactly one buffer source started
at `max nextStartTime currentTime` and advances the cursor by its duration. -/
lemma handleServerMessage_audio (now d : ℚ) (s : LiveState)
    (hctx : s.outputAudioContext.isSome = true)
    (hnode : s.outputNode.isSome = true) :
    handleServerMessage now (some d) false s
      = { s with
            nextStartTime := max s.nextStartTime now + d
            sources := s.sources ++ [⟨s.nextSid, max s.nextStartTime now, d, false, true⟩]
            nextSid := s.nextSid + 1 } := by
  obtain ⟨a, ha⟩ := Option.isSome_iff_exists.mp hctx
  obtain ⟨b, hb⟩ := Option.isSome_iff_exists.mp hnode
  simp [handleServerMessage, ha, hb]

/-- Processing a message with the `interrupted` flag is processing its audio
part and then stopping every tracked source, clearing the set, and zeroing
the cursor. -/
lemma handleServerMessage_interrupt (now : ℚ) (dur : Option ℚ) (s : LiveState)
    (hctx : s.outputAudioContext.isSome = true)
    (hnode : s.outputNode.isSome = true) :
    handleServerMessage now dur true s
      = { handleServerMessage now dur false s with
            sources := (handleServerMessage now dur false s).sources.map stopTracked
            nextStartTime := 0 } := by
  obtain ⟨a, ha⟩ := Option.isSome_iff_exists.mp hctx
  obtain ⟨b, hb⟩ := Option.isSome_iff_exists.mp hnode
  cases dur <;> simp [handleServerMessage, ha, hb]

lemma handleServerMessage_outputCtx (now : ℚ) (dur : Option ℚ) (flag : Bool)
    (s : LiveState) :
    (handleServerMessage now dur flag s).outputAudioContext = s.outputAudioContext
    ∧ (handleServerMessage now dur flag s).outputNode = s.outputNode := by
  unfold handleServerMessage
  split
  · exact ⟨rfl, rfl⟩
  · cases dur <;> cases flag <;> exact ⟨rfl, rfl⟩

/-- Every source the state already held is still held after a message
without interruption is processed. -/
lemma mem_handleServerMessage_audio (now : ℚ) (dur : Option ℚ) (s : LiveState)
    (r : SrcRec) (hr : r ∈ s.sources) :
    r ∈ (handleServerMessage now dur false s).sources := by
  unfold handleServerMessage
  split
  · exact hr
  · cases dur <;> simp [hr]

/-- A run of audio-only messages, started while the output context and node
exist, appends exactly the schedule that the recurrence of the spec describes. -/
lemma runAudio_sources (msgs : List (ℚ × ℚ)) (s : LiveState)
    (hctx : s.outputAudioContext.isSome = true)
    (hnode : s.outputNode.isSome = true) :
    (runAudio msgs s).sources
      = s.sources ++ specSchedule msgs s.nextStartTime s.nextSid := by
  induction msgs generalizing s with
  | nil => simp [runAudio, specSchedule]
  | cons p rest ih =>
    obtain ⟨now, d⟩ := p
    rw [runAudio, handleServerMessage_audio now d s hctx hnode, ih]
    · simp [specSchedule]
    · exact hctx
    · exact hnode

lemma specSchedule_chain (msgs : List (ℚ × ℚ)) (c : ℚ) (i : Nat) :
    List.Chain' (fun a b : ℚ × ℚ => a.1 + a.2 ≤ b.1)
      ((specSchedule msgs c i).map fun r => (r.startTime, r.duration)) := by
  induction msgs generalizing c i with
  | nil => simp [specSchedule]
  | cons p rest ih =>
    obtain ⟨now, d⟩ := p
    cases rest with
    | nil => simp [specSchedule]
    | cons q rs =>
      obtain ⟨n2, d2⟩ := q
      have h := ih (max c now + d) (i + 1)
      simp only [specSchedule, List.map_cons] at h ⊢
      exact List.chain'_cons.mpr ⟨le_max_left _ _, h⟩

lemma specSchedule_starts_mono (msgs : List (ℚ × ℚ)) (c : ℚ) (i : Nat)
    (hd : ∀ p ∈ msgs, (0 : ℚ) ≤ p.2) :
    List.Chain' (· ≤ ·) ((specSchedule msgs c i).map fun r => r.startTime) := by
  induction msgs generalizing c i with
  | nil => simp [specSchedule]
  | cons p rest ih =>
    obtain ⟨now, d⟩ := p
    cases rest with
    | nil => simp [specSchedule]
    | cons q rs =>
      obtain ⟨n2, d2⟩ := q
      have hd0 : (0 : ℚ) ≤ d := hd (now, d) (by simp)
      have h := ih (max c now + d) (i + 1) (fun p hp => hd p (List.mem_cons_of_mem _ hp))
      simp only [specSchedule, List.map_cons] at h ⊢
      refine List.chain'_cons.mpr ⟨?_, h⟩
      calc max c now ≤ max c now + d := by linarith
        _ ≤ max (max c now + d) n2 := le_max_left _ _

/-- Lemma: `disconnect` nulls the stream, processor, input source, both contexts
and the timer slot, clears the connected flag, and leaves every other field
(output node, sources, cursor, analysers) unchanged. -/
lemma disconnect_fst (t : LiveState) :
    (disconnect t).1
      = { t with
            stream := none
            processor := none
            inputSource := none
            inputAudioContext := none
            outputAudioContext := none
            volumeInterval := none
            isConnected := false } := by
  obtain ⟨ic, oc, isrc, pr, onn, ia, oa, src, nst, strm, conn, sreq, vi, nsid⟩ := t
  cases strm <;> cases pr <;> cases isrc <;> cases ic <;> cases oc <;> cases vi <;> rfl

end LiveService

namespace PeerService

/-- Lemma: `destroy` nulls the call, remote stream, timer, analysis context, local
stream and registration slots, and leaves the analysers and the id counter
unchanged. -/
lemma destroy_fst (s : PeerState) :
    (destroy s).1
      = { s with
            call := none
            remoteStream := none
            volumeInterval := none
            audioContext := none
            myStream := none
            peer := none } := by
  obtain ⟨p, ms, rs, c, ac, ia, ra, vi, ni⟩ := s
  cases c <;> cases vi <;> cases ac <;> cases ms <;> cases p <;> rfl

/-- Once a stream is memoized, any further sequence of `startLocalStream`
calls changes nothing and emits no acquisition. -/
lemma runStartCalls_memoized (fs : List Nat) (s : PeerState)
    (hs : s.myStream.isSome = true) :
    runStartCalls fs s = (s, []) := by
  induction fs with
  | nil => rfl
  | cons f fs ih =>
    obtain ⟨m, hm⟩ := Option.isSome_iff_exists.mp hs
    simp [runStartCalls, startLocalStream, hm, ih]

end PeerService

/-! ## Claim theorems -/

/-- C1: for every sequence of inbound audio chunks processed by
`LiveService.handleServerMessage` with no interruption in between, each
chunk is scheduled to start exactly at `max nextStartTime currentTime` and the
cursor then advances by the duration of that chunk (the appended sources are
exactly the recurrence `specSchedule`); hence every chunk starts no earlier
than the start of the previous chunk plus the duration of the previous chunk, and
for nonnegative durations the start times are non-decreasing. -/
theorem c1_playback_schedule (s : LiveState) (msgs : List (ℚ × ℚ))
    (hctx : s.outputAudioContext.isSome = true)
    (hnode : s.outputNode.isSome = true) :
    LiveService.newChunks msgs s
      = LiveService.specSchedule msgs s.nextStartTime s.nextSid
    ∧ List.Chain' (fun a b : ℚ × ℚ => a.1 + a.2 ≤ b.1)
        ((LiveService.newChunks msgs s).map fun r => (r.startTime, r.duration))
    ∧ ((∀ p ∈ msgs, (0 : ℚ) ≤ p.2) →
        List.Chain' (· ≤ ·) ((LiveService.newChunks msgs s).map fun r => r.startTime)) := by
  have he : LiveService.newChunks msgs s
      = LiveService.specSchedule msgs s.nextStartTime s.nextSid := by
    unfold LiveService.newChunks
    rw [LiveService.runAudio_sources msgs s hctx hnode]
    exact List.drop_left _ _
  refine ⟨he, ?_, ?_⟩
  · rw [he]; exact LiveService.specSchedule_chain msgs _ _
  · intro hd; rw [he]; exact LiveService.specSchedule_starts_mono msgs _ _ hd

/-- Witness for C1: from a freshly connected service with the output clock
at 0, chunks of durations 0.5 s, 0.3 s, 0.2 s are scheduled at start times
0, 0.5, 0.8 seconds. -/
theorem c1_playback_schedule_witness :
    LiveService.newChunks [(0, 1/2), (0, 3/10), (0, 1/5)]
        (LiveService.connect 100 7 initLive).1
      = LiveService.specSchedule [(0, 1/2), (0, 3/10), (0, 1/5)] 0 0
    ∧ (LiveService.newChunks [(0, 1/2), (0, 3/10), (0, 1/5)]
        (LiveService.connect 100 7 initLive).1).map (fun r => r.startTime)
      = [0, 1/2, 4/5] := by
  constructor
  · exact (c1_playback_schedule (LiveService.connect 100 7 initLive).1
      [(0, 1/2), (0, 3/10), (0, 1/5)] rfl rfl).1
  · norm_num [LiveService.newChunks, LiveService.runAudio,
      LiveService.handleServerMessage, LiveService.connect, initLive]

/-- C2: after `LiveService.handleServerMessage` processes a message with the
interrupted flag (while the output context and node exist), every source
that was tracked in `audioSources` has been stopped and removed, the
`audioSources` set is empty, the cursor `nextStartTime` is 0, and the next
audio chunk to arrive is scheduled to start at `max 0 currentTime`. -/
theorem c2_interruption_reset (s : LiveState) (now : ℚ) (dur : Option ℚ)
    (hctx : s.outputAudioContext.isSome = true)
    (hnode : s.outputNode.isSome = true) :
    (∀ r ∈ (LiveService.handleServerMessage now dur true s).sources,
        r.tracked = false)
    ∧ (∀ r ∈ s.sources, r.tracked = true →
        { r with stopped := true, tracked := false }
          ∈ (LiveService.handleServerMessage now dur true s).sources)
    ∧ (LiveService.handleServerMessage now dur true s).nextStartTime = 0
    ∧ (∀ now2 d2 : ℚ,
        ((LiveService.handleServerMessage now2 (some d2) false
            (LiveService.handleServerMessage now dur true s)).sources.map
          (fun r => r.startTime)).getLast? = some (max 0 now2)) := by
  have hi := LiveService.handleServerMessage_interrupt now dur s hctx hnode
  refine ⟨?_, ?_, ?_, ?_⟩
  · rw [hi]
    intro r hr
    simp only [List.mem_map] at hr
    obtain ⟨r', _, rfl⟩ := hr
    exact LiveService.stopTracked_tracked r'
  · intro r hr htr
    rw [hi]
    have h1 : r ∈ (LiveService.handleServerMessage now dur false s).sources :=
      LiveService.mem_handleServerMessage_audio now dur s r hr
    have h2 : LiveService.stopTracked r
        = { r with stopped := true, tracked := false } := by
      simp [LiveService.stopTracked, htr]
    simpa [h2] using List.mem_map_of_mem LiveService.stopTracked h1
  · rw [hi]
  · intro now2 d2
    have hc2 : (LiveService.handleServerMessage now dur true s).outputAudioContext.isSome
        = true := by
      rw [(LiveService.handleServerMessage_outputCtx now dur true s).1]; exact hctx
    have hn2 : (LiveService.handleServerMessage now dur true s).outputNode.isSome
        = true := by
      rw [(LiveService.handleServerMessage_outputCtx now dur true s).2]; exact hnode
    rw [LiveService.handleServerMessage_audio now2 d2 _ hc2 hn2]
    have h0 : (LiveService.handleServerMessage now dur true s).nextStartTime = 0 := by
      rw [hi]
    simp [h0]

/-- Witness for C2: interrupting a session that holds one scheduled chunk
and an advanced cursor empties the set and zeroes the cursor. -/
theorem c2_interruption_reset_witness :
    (∀ r ∈ (LiveService.handleServerMessage 2 none true
        (LiveService.handleServerMessage 0 (some 1) false
          (LiveService.connect 100 7 initLive).1)).sources, r.tracked = false)
    ∧ (LiveService.handleServerMessage 2 none true
        (LiveService.handleServerMessage 0 (some 1) false
          (LiveService.connect 100 7 initLive).1)).nextStartTime = 0 := by
  have h := c2_interruption_reset
    (LiveService.handleServerMessage 0 (some 1) false
      (LiveService.connect 100 7 initLive).1) 2 none rfl rfl
  exact ⟨h.1, h.2.2.1⟩

/-- C10: a message carrying both an audio payload and the interrupted flag
first schedules its chunk at `max nextStartTime currentTime` and then the
interruption handling stops that very chunk together with every other
tracked source, leaving the set empty and the cursor at 0. -/
theorem c10_interrupt_overrides_own_audio (s : LiveState) (now d : ℚ)
    (hctx : s.outputAudioContext.isSome = true)
    (hnode : s.outputNode.isSome = true) :
    LiveService.handleServerMessage now (some d) true s
      = { LiveService.handleServerMessage now (some d) false s with
            sources := (LiveService.handleServerMessage now (some d) false s).sources.map
              LiveService.stopTracked
            nextStartTime := 0 }
    ∧ (⟨s.nextSid, max s.nextStartTime now, d, true, false⟩ : SrcRec)
        ∈ (LiveService.handleServerMessage now (some d) true s).sources
    ∧ (∀ r ∈ (LiveService.handleServerMessage now (some d) true s).sources,
        r.tracked = false)
    ∧ (LiveService.handleServerMessage now (some d) true s).nextStartTime = 0 := by
  have hi := LiveService.handleServerMessage_interrupt now (some d) s hctx hnode
  have ha := LiveService.handleServerMessage_audio now d s hctx hnode
  refine ⟨hi, ?_, ?_, by rw [hi]⟩
  · rw [hi, ha]
    simp only [List.map_append, List.map_cons, List.map_nil]
    apply List.mem_append_right
    simp [LiveService.stopTracked]
  · rw [hi]
    intro r hr
    simp only [List.mem_map] at hr
    obtain ⟨r', _, rfl⟩ := hr
    exact LiveService.stopTracked_tracked r'

/-- Witness for C10: a message with a 1 s chunk and the interrupted flag,
processed on a fresh connected session, leaves its own chunk scheduled at 0,
stopped and untracked, with the cursor back at 0. -/
theorem c10_interrupt_overrides_own_audio_witness :
    ((⟨0, 0, 1, true, false⟩ : SrcRec)
        ∈ (LiveService.handleServerMessage 0 (some 1) true
            (LiveService.connect 100 7 initLive).1).sources)
    ∧ (LiveService.handleServerMessage 0 (some 1) true
        (LiveService.connect 100 7 initLive).1).nextStartTime = 0 := by
  have h := c10_interrupt_overrides_own_audio
    (LiveService.connect 100 7 initLive).1 0 1 rfl rfl
  refine ⟨?_, h.2.2.2⟩
  have hm := h.2.1
  simpa [LiveService.connect, initLive] using hm

/-- C3: both full teardowns are idempotent: a second `PeerService.destroy`
or `LiveService.disconnect` from any state is a no-op that changes nothing
and releases nothing. -/
theorem c3_teardown_idempotent :
    (∀ s : PeerState,
        PeerService.destroy (PeerService.destroy s).1
          = ((PeerService.destroy s).1, []))
    ∧ (∀ t : LiveState,
        LiveService.disconnect (LiveService.disconnect t).1
          = ((LiveService.disconnect t).1, [])) := by
  constructor
  · intro s
    rw [PeerService.destroy_fst s]
    rfl
  · intro t
    rw [LiveService.disconnect_fst t]
    rfl

/-- C4: `PeerService.startLocalStream` acquires the microphone exactly once
per session: with a memoized stream it returns it unchanged without calling
the media-acquisition collaborator, and a sequence of calls from a
stream-less state performs exactly one acquisition. -/
theorem c4_mic_acquired_once :
    (∀ (s : PeerState) (fresh m : Nat), s.myStream = some m →
        PeerService.startLocalStream fresh s = (s, m, []))
    ∧ (∀ (s : PeerState) (f : Nat) (fs : List Nat), s.myStream = none →
        countMic (PeerService.runStartCalls (f :: fs) s).2 = 1) := by
  constructor
  · intro s fresh m hm
    simp [PeerService.startLocalStream, hm]
  · intro s f fs h0
    have h1 : PeerService.startLocalStream f s
        = ({ s with myStream := some f }, f, [Ev.getUserMedia]) := by
      simp [PeerService.startLocalStream, h0]
    rw [PeerService.runStartCalls]
    simp only [h1]
    rw [PeerService.runStartCalls_memoized fs _ (by simp)]
    simp [countMic]

/-- Witness for C4: a memoized stream is returned as-is, and three
successive calls on a fresh manager acquire the microphone once. -/
theorem c4_mic_acquired_once_witness :
    PeerService.startLocalStream 9 { initPeer with myStream := some 3 }
      = ({ initPeer with myStream := some 3 }, 3, [])
    ∧ countMic (PeerService.runStartCalls [5, 6, 7] initPeer).2 = 1 :=
  ⟨c4_mic_acquired_once.1 { initPeer with myStream := some 3 } 9 3 rfl,
   c4_mic_acquired_once.2 initPeer 5 [6, 7] rfl⟩

/-- C5 (amended): after `LiveService.disconnect` no metering tick fires (the
timer handle is cleared) and no previously scheduled chunk is audible,
because the teardown closes the output audio context; the scheduled buffer
sources themselves are not individually stopped. -/
theorem c5_disconnect_silences (t : LiveState) :
    (LiveService.disconnect t).1.volumeInterval = none
    ∧ (LiveService.disconnect t).1.outputAudioContext = none
    ∧ LiveService.audibleSources (LiveService.disconnect t).1 = [] := by
  rw [LiveService.disconnect_fst t]
  refine ⟨rfl, rfl, ?_⟩
  simp [LiveService.audibleSources]

/-- Counterexample for C5 as stated: after scheduling one chunk and calling
`disconnect`, the tracked buffer source is still present and has not been
stopped — the teardown never calls `stop()` on the sources in
`audioSources` (silence comes from closing the output context instead). -/
theorem c5_counterexample :
    ((LiveService.disconnect (LiveService.handleServerMessage 0 (some 1) false
        (LiveService.connect 100 7 initLive).1)).1.sources.filter
      (fun r => r.tracked && !r.stopped))
      = [⟨0, 0, 1, false, true⟩] := by
  norm_num [LiveService.disconnect, LiveService.handleServerMessage,
    LiveService.connect, initLive, List.filter]

/-- C6: `PeerService.setupCallEvents` removes the old stream/close/error
listeners before attaching new ones, so afterwards each event has exactly
one active listener whatever was attached before; and `PeerService.init`
destroys any prior signaling registration before creating the new one. -/
theorem c6_at_most_one_handler :
    (∀ (c : CallRec) (h : Nat),
        (PeerService.setupCallEvents c h).streamHandlers = [h]
        ∧ (PeerService.setupCallEvents c h).closeHandlers = [h + 1]
        ∧ (PeerService.setupCallEvents c h).errorHandlers = [h + 2])
    ∧ (∀ (s : PeerState) (pid p : Nat), s.peer = some p →
        (PeerService.init pid s).2 = [Ev.destroyPeer p, Ev.createPeer pid]
        ∧ (PeerService.init pid s).1.peer = some pid) := by
  constructor
  · intro c h
    exact ⟨rfl, rfl, rfl⟩
  · intro s pid p hp
    simp [PeerService.init, hp]

/-- Witness for C6: rewiring a call that already carries several listeners
leaves exactly one per event, and re-initializing a registered manager
destroys the old registration before creating the new one. -/
theorem c6_at_most_one_handler_witness :
    ((PeerService.setupCallEvents ⟨9, 2, [0, 1, 2], [0], [5]⟩ 10).streamHandlers = [10]
      ∧ (PeerService.setupCallEvents ⟨9, 2, [0, 1, 2], [0], [5]⟩ 10).closeHandlers = [11]
      ∧ (PeerService.setupCallEvents ⟨9, 2, [0, 1, 2], [0], [5]⟩ 10).errorHandlers = [12])
    ∧ (PeerService.init 8 { initPeer with peer := some 4 }).2
        = [Ev.destroyPeer 4, Ev.createPeer 8] :=
  ⟨c6_at_most_one_handler.1 ⟨9, 2, [0, 1, 2], [0], [5]⟩ 10,
   (c6_at_most_one_handler.2 { initPeer with peer := some 4 } 8 4 rfl).1⟩

/-- C7: when answering throws an error whose message includes the text
stable, `PeerService.answerCall` swallows it, wires the call event handlers
and returns normally; an error with any other message propagates. -/
theorem c7_stable_error_swallowed (s : PeerState) (c : CallRec) (fresh : Nat)
    (msg : List Char) (hc : s.call = some c) :
    (charsContains stableChars msg = true →
      PeerService.answerCall (PeerService.AnswerOutcome.err msg) fresh s
        = Except.ok
            ({ (PeerService.startLocalStream fresh s).1 with
                call := some (PeerService.setupCallEvents c
                  (PeerService.startLocalStream fresh s).1.nextId)
                nextId := (PeerService.startLocalStream fresh s).1.nextId + 3 },
              (PeerService.startLocalStream fresh s).2.2))
    ∧ (charsContains stableChars msg = false →
      PeerService.answerCall (PeerService.AnswerOutcome.err msg) fresh s
        = Except.error msg) := by
  constructor
  · intro hst
    have hne : msg.isEmpty = false := by
      cases msg with
      | nil => simp [charsContains, stableChars] at hst
      | cons a as => rfl
    cases hm : s.myStream <;>
      simp [PeerService.answerCall, PeerService.startLocalStream, hc, hst, hne, hm]
  · intro hst
    cases he : msg.isEmpty <;> cases hm : s.myStream <;>
      simp [PeerService.answerCall, PeerService.startLocalStream, hc, hst, he, hm]

/-- Witness for C7: on a manager with a pending incoming call, an answer
error whose message includes stable yields a normal return with the handlers
wired, while a boom error propagates. -/
theorem c7_stable_error_swallowed_witness :
    PeerService.answerCall
        (PeerService.AnswerOutcome.err ['n', 'o', 't', ' ', 's', 't', 'a', 'b', 'l', 'e'])
        5 { initPeer with call := some ⟨1, 2, [], [], []⟩ }
      = Except.ok
          ({ (PeerService.startLocalStream 5
                { initPeer with call := some ⟨1, 2, [], [], []⟩ }).1 with
              call := some (PeerService.setupCallEvents ⟨1, 2, [], [], []⟩
                (PeerService.startLocalStream 5
                  { initPeer with call := some ⟨1, 2, [], [], []⟩ }).1.nextId)
              nextId := (PeerService.startLocalStream 5
                { initPeer with call := some ⟨1, 2, [], [], []⟩ }).1.nextId + 3 },
            (PeerService.startLocalStream 5
              { initPeer with call := some ⟨1, 2, [], [], []⟩ }).2.2)
    ∧ PeerService.answerCall (PeerService.AnswerOutcome.err ['b', 'o', 'o', 'm'])
        5 { initPeer with call := some ⟨1, 2, [], [], []⟩ }
      = Except.error ['b', 'o', 'o', 'm'] :=
  ⟨(c7_stable_error_swallowed { initPeer with call := some ⟨1, 2, [], [], []⟩ }
      ⟨1, 2, [], [], []⟩ 5 ['n', 'o', 't', ' ', 's', 't', 'a', 'b', 'l', 'e'] rfl).1
      (by decide),
   (c7_stable_error_swallowed { initPeer with call := some ⟨1, 2, [], [], []⟩ }
      ⟨1, 2, [], [], []⟩ 5 ['b', 'o', 'o', 'm'] rfl).2 (by decide)⟩

/-- C8: an already-connected `LiveService` treats a further `connect` as a
no-op that acquires nothing and changes nothing, and `PeerService.makeCall`
with an existing call closes it before creating the new one. -/
theorem c8_no_concurrent_sessions :
    (∀ (t : LiveState) (base mic : Nat), t.isConnected = true →
        LiveService.connect base mic t = (t, []))
    ∧ (∀ (s : PeerState) (c : CallRec) (rid ncid fresh : Nat), s.call = some c →
        (PeerService.makeCall rid ncid fresh s).2
          = (PeerService.startLocalStream fresh s).2.2
              ++ [Ev.closeCall c.cid, Ev.newCall ncid]
        ∧ (PeerService.makeCall rid ncid fresh s).1.call
          = some (PeerService.setupCallEvents ⟨ncid, rid, [], [], []⟩
              (PeerService.startLocalStream fresh s).1.nextId)) := by
  constructor
  · intro t base mic h
    simp [LiveService.connect, h]
  · intro s c rid ncid fresh hc
    cases hm : s.myStream <;>
      simp [PeerService.makeCall, PeerService.startLocalStream, hc, hm]

/-- Witness for C8: a connected agent manager ignores a second connect, and
a P2P manager holding call 3 closes it before placing the new call 9. -/
theorem c8_no_concurrent_sessions_witness :
    LiveService.connect 200 8 { initLive with isConnected := true }
      = ({ initLive with isConnected := true }, [])
    ∧ (PeerService.makeCall 2 9 5
        { initPeer with call := some ⟨3, 4, [], [], []⟩ }).2
      = (PeerService.startLocalStream 5
          { initPeer with call := some ⟨3, 4, [], [], []⟩ }).2.2
          ++ [Ev.closeCall 3, Ev.newCall 9] :=
  ⟨c8_no_concurrent_sessions.1 { initLive with isConnected := true } 200 8 rfl,
   (c8_no_concurrent_sessions.2 { initPeer with call := some ⟨3, 4, [], [], []⟩ }
      ⟨3, 4, [], [], []⟩ 2 9 5 rfl).1⟩

/-- C9: `PeerService.endCall` clears only the call-scoped slots (call,
remote stream, timer, analysis context), leaves the local microphone stream
and the registration untouched, and never stops tracks, acquires media or
destroys the registration; `LiveService.disconnect` instead stops the
microphone tracks and nulls the stream immediately. -/
theorem c9_endCall_preserves_mic :
    (∀ s : PeerState,
        (PeerService.endCall s).1.myStream = s.myStream
        ∧ (PeerService.endCall s).1.peer = s.peer
        ∧ (PeerService.endCall s).1.call = none
        ∧ (PeerService.endCall s).1.remoteStream = none
        ∧ (PeerService.endCall s).1.volumeInterval = none
        ∧ (PeerService.endCall s).1.audioContext = none
        ∧ (∀ m : Nat, Ev.stopTracks m ∉ (PeerService.endCall s).2)
        ∧ Ev.getUserMedia ∉ (PeerService.endCall s).2
        ∧ (∀ p : Nat, Ev.destroyPeer p ∉ (PeerService.endCall s).2))
    ∧ (∀ t : LiveState,
        (LiveService.disconnect t).1.stream = none
        ∧ (∀ m : Nat, t.stream = some m →
            Ev.stopTracks m ∈ (LiveService.disconnect t).2)) := by
  constructor
  · intro s
    cases hc : s.call <;> cases hv : s.volumeInterval <;> cases ha : s.audioContext <;>
      simp [PeerService.endCall, PeerService.cleanupCall, hc, hv, ha]
  · intro t
    constructor
    · rw [LiveService.disconnect_fst t]
    · intro m hm
      obtain ⟨ic, oc, isrc, pr, onn, ia, oa, src, nst, strm, conn, sreq, vi, nsid⟩ := t
      simp only at hm
      subst hm
      cases pr <;> cases isrc <;> cases ic <;> cases oc <;> cases vi <;>
        simp [LiveService.disconnect]

/-- Witness for C9: ending a call on a manager that holds the microphone
stream 3 keeps that stream, while disconnecting an agent session holding
stream 7 stops its tracks. -/
theorem c9_endCall_preserves_mic_witness :
    (PeerService.endCall { initPeer with myStream := some 3 }).1.myStream = some 3
    ∧ Ev.stopTracks 7 ∈ (LiveService.disconnect { initLive with stream := some 7 }).2 :=
  ⟨(c9_endCall_preserves_mic.1 { initPeer with myStream := some 3 }).1,
   (c9_endCall_preserves_mic.2 { initLive with stream := some 7 }).2 7 rfl⟩
